import Mathlib

/-!
Verification development for the batch file-renaming engine
(renamer_engine.py, history_manager.py, validators.py, config.py).

The Python code is shallowly embedded: paths are parent/name pairs,
the filesystem is a value with resolution, existence, lock and
writability oracles, and every engine function is translated into an
executable Lean definition mirroring the source control flow.
-/

namespace FileOrg

/-- A filesystem path as the engine manipulates it: the code only ever
builds targets as `filepath.parent / new_name`, so a path is its parent
directory string plus its final name component.  Equality of `FPath`
models Python `PurePath` equality (unresolved, textual). -/
structure FPath where
  parent : String
  name : String
deriving DecidableEq, Repr

/-- Textual rendering of a path, used as the domain of resolution. -/
def pathStr (p : FPath) : String := p.parent ++ "/" ++ p.name

/-- Position of the last dot in a list of characters, if any. -/
def lastDotPos (cs : List Char) : Option Nat :=
  (List.range cs.length).foldl
    (fun acc i => if cs.getD i ' ' = '.' then some i else acc) none

/-- Python pathlib suffix: text from the last dot onward, provided the
dot is neither the first nor the last character; else empty. -/
def pySuffix (nm : String) : String :=
  let cs := nm.data
  match lastDotPos cs with
  | some i => if 0 < i ∧ i < cs.length - 1 then String.mk (cs.drop i) else ""
  | none => ""

/-- Python pathlib stem: the name with its suffix removed. -/
def pyStem (nm : String) : String :=
  let cs := nm.data
  match lastDotPos cs with
  | some i => if 0 < i ∧ i < cs.length - 1 then String.mk (cs.take i) else nm
  | none => nm

/-- Python str.zfill on a digit string (naturals carry no sign here). -/
def zfill (s : String) (w : Nat) : String :=
  if s.length < w then String.mk (List.replicate (w - s.length) '0') ++ s else s

/-- Error raised by the modelled OS rename call. -/
inductive OSMsg where
  | permission (m : String)
  | osError (m : String)
deriving DecidableEq, Repr

/-- The message carried by an OS error (Python str(e)). -/
def OSMsg.msg : OSMsg → String
  | .permission m => m
  | .osError m => m

/-- The ambient filesystem.  `resolve` is Path.resolve rendered to a
canonical string (fixed by the symlink/cwd structure, unchanged by
renaming regular files); `files` is the set of resolved paths holding a
regular file; `locked` marks resolved paths whose open/rename raises
PermissionError; `writableDir` is os.access(dir, W_OK) on the textual
parent; `mtime`/`ctime` are the stat times used by date sorts. -/
structure FS where
  resolve : FPath → String
  files : String → Bool
  locked : String → Bool
  writableDir : String → Bool
  mtime : FPath → Nat
  ctime : FPath → Nat

/-- Path.exists(): the resolved location holds a file. -/
def FS.pathExists (fs : FS) (p : FPath) : Bool := fs.files (fs.resolve p)

/-- os.rename old -> new: fails with PermissionError when the source is
locked, with an OSError when the source is gone; otherwise moves the
file (the resolved source location empties, the target fills). -/
def FS.rename (fs : FS) (old new : FPath) : Except OSMsg FS :=
  let ro := fs.resolve old
  let rn := fs.resolve new
  if fs.locked ro then
    .error (.permission "Operation not permitted")
  else if !fs.files ro then
    .error (.osError "No such file or directory")
  else
    .ok { fs with
          files := fun s => if s = ro then false else if s = rn then true else fs.files s }

/-- Padding mode from config.py PADDING_OPTIONS: auto, none, or a fixed
numeric width. -/
inductive PaddingMode where
  | auto
  | pnone
  | fixed (w : Nat)
deriving DecidableEq, Repr

/-- RenameConfig from config.py; sort method and conflict strategy stay
strings because the engine dispatches on raw strings with fallbacks. -/
structure RenameConfig where
  base_name : String
  start_number : Nat
  separator : String
  sort_method : String
  conflict_resolution : String
  padding : PaddingMode
deriving Repr

/-- RenameConfig.get_padding_width. -/
def RenameConfig.paddingWidth (cfg : RenameConfig) (totalFiles : Nat) : Nat :=
  match cfg.padding with
  | .auto =>
      if totalFiles < 10 then 0
      else if totalFiles < 100 then 2
      else if totalFiles < 1000 then 3
      else 4
  | .pnone => 0
  | .fixed w => w

/-- validators.validate_file_access: the path must exist (as a regular
file, which is all `FS.files` holds) and be openable, i.e. not locked. -/
def validateFileAccess (fs : FS) (p : FPath) : Bool × String :=
  if !fs.pathExists p then (false, "File does not exist")
  else if fs.locked (fs.resolve p) then
    (false, "File is locked or you don't have permission")
  else (true, "")

/-- validators.validate_path_length: filename at most 255 characters,
full resolved path at most 260. -/
def validatePathLength (fs : FS) (p : FPath) : Bool × String :=
  if p.name.length > 255 then
    (false, "Filename too long (" ++ toString p.name.length ++ " > 255 chars)")
  else if (fs.resolve p).length > 260 then
    (false, "Full path too long (" ++ toString (fs.resolve p).length ++ " > 260 chars)")
  else (true, "")

/-- validators.validate_rename_operation, checks in source order:
source exists, source accessible, resolved source differs from resolved
target, target length constraints, target directory writable. -/
def validateRenameOperation (fs : FS) (old new : FPath) : Bool × String :=
  if !fs.pathExists old then
    (false, "Source file does not exist: " ++ old.name)
  else
    match validateFileAccess fs old with
    | (false, e) => (false, e)
    | (true, _) =>
      if fs.resolve old = fs.resolve new then
        (false, "Source and destination are the same")
      else
        match validatePathLength fs new with
        | (false, e) => (false, e)
        | (true, _) =>
          if !fs.writableDir new.parent then
            (false, "Destination directory is not writable: " ++ new.parent)
          else (true, "")

/-- FileRenamer.extract_extension: pathlib suffix of the file name. -/
def extractExtension (p : FPath) : String := pySuffix p.name

/-- The padded index string from FileRenamer.generate_new_name. -/
def idxString (idx w : Nat) : String :=
  if w > 0 then zfill (toString idx) w else toString idx

/-- FileRenamer.generate_new_name: base + separator + padded index +
extension. -/
def generateNewName (cfg : RenameConfig) (totalFiles : Nat) (idx : Nat)
    (ext : String) : String :=
  cfg.base_name ++ cfg.separator ++ idxString idx (cfg.paddingWidth totalFiles) ++ ext

/-- Lexicographic comparison of character lists by code point, Python
string order. -/
def charListLe : List Char → List Char → Bool
  | [], _ => true
  | _ :: _, [] => false
  | a :: as, b :: bs =>
      if a = b then charListLe as bs
      else decide (a.toNat < b.toNat)

/-- Lowercasing as Python str.lower on ASCII names. -/
def lowerStr (s : String) : String := String.mk (s.data.map Char.toLower)

/-- Insert into a sorted list, before the first element not below it;
together with `stableSortBy` this models Python sorted(), which is a
stable sort: ties keep their original relative order. -/
def insertLe (le : FPath → FPath → Bool) (x : FPath) : List FPath → List FPath
  | [] => [x]
  | y :: ys => if le x y then x :: y :: ys else y :: insertLe le x ys

/-- Stable sort by a boolean total preorder (models Python sorted). -/
def stableSortBy (le : FPath → FPath → Bool) : List FPath → List FPath
  | [] => []
  | x :: xs => insertLe le x (stableSortBy le xs)

/-- FileRenamer.sort_files: dispatch on the sort-method string, with
alphabetical (case-insensitive name) as the fallback for unknown
methods; date sorts read stat times from the filesystem; reverse sorts
compare inverted, which keeps ties in input order as Python does. -/
def sortFiles (fs : FS) (method : String) (files : List FPath) : List FPath :=
  if method = "alphabetical" then
    stableSortBy (fun a b => charListLe (lowerStr a.name).data (lowerStr b.name).data) files
  else if method = "date_modified" then
    stableSortBy (fun a b => decide (fs.mtime a ≤ fs.mtime b)) files
  else if method = "date_modified_desc" then
    stableSortBy (fun a b => decide (fs.mtime b ≤ fs.mtime a)) files
  else if method = "date_created" then
    stableSortBy (fun a b => decide (fs.ctime a ≤ fs.ctime b)) files
  else if method = "date_created_desc" then
    stableSortBy (fun a b => decide (fs.ctime b ≤ fs.ctime a)) files
  else if method = "selection_order" then
    files
  else
    stableSortBy (fun a b => charListLe (lowerStr a.name).data (lowerStr b.name).data) files

/-- The conflicts dictionary of FileRenamer.check_conflicts, as an
insertion-ordered association list mirroring a Python dict. -/
abbrev ConflictDict := List (FPath × Option FPath)

/-- Python dict assignment d[k] = v: update in place or append. -/
def dictInsert (d : ConflictDict) (k : FPath) (v : Option FPath) : ConflictDict :=
  if (List.any d fun kv => kv.1 = k) then
    List.map (fun kv => if kv.1 = k then (k, v) else kv) d
  else d ++ [(k, v)]

/-- Python `k in d` on the conflicts dictionary. -/
def dictMem (d : ConflictDict) (k : FPath) : Bool :=
  List.any d fun kv => kv.1 = k

/-- One step of the duplicate-target pass of check_conflicts: record
the target as an internal conflict when it was already seen, then add
it to the seen set. -/
def dupStep (st : ConflictDict × List FPath) (np : FPath) : ConflictDict × List FPath :=
  (if np ∈ st.2 then dictInsert st.1 np none else st.1, np :: st.2)

/-- FileRenamer.check_conflicts: first pass records targets that exist
on disk and differ (textually) from their source; second pass records
targets appearing more than once in the plan, keyed to None. -/
def checkConflicts (fs : FS) (plan : List (FPath × FPath)) : ConflictDict :=
  let c1 : ConflictDict := plan.foldl
    (fun d pr => if fs.pathExists pr.2 ∧ pr.2 ≠ pr.1 then dictInsert d pr.2 (some pr.1) else d)
    []
  ((plan.map Prod.snd).foldl dupStep (c1, [])).1

/-- The add_suffix search loop of FileRenamer.resolve_conflict: try
stem_copy, stem_copy2, ... until an unused path is found.  The source
loop is unbounded; the fuel only truncates runs the source would never
finish (every candidate exists), returning the last candidate then. -/
def addSuffixGo (fs : FS) (parent stem ext : String) : Nat → Nat → FPath
  | 0, counter =>
      ⟨parent, stem ++ "_copy" ++ (if counter > 1 then toString counter else "") ++ ext⟩
  | fuel + 1, counter =>
      let nm := stem ++ "_copy" ++ (if counter > 1 then toString counter else "") ++ ext
      if fs.pathExists ⟨parent, nm⟩ then addSuffixGo fs parent stem ext fuel (counter + 1)
      else ⟨parent, nm⟩

/-- The auto_increment search loop of FileRenamer.resolve_conflict:
starting at the conflicting index, return the first index whose
synthesized name does not exist on disk; the source stops after the
safety limit search_index > index + 10000, i.e. after 10001 candidates,
signalled here by none. -/
def autoIncrementGo (fs : FS) (parent base sep ext : String) (w : Nat) :
    Nat → Nat → Option FPath
  | 0, _ => none
  | fuel + 1, i =>
      let nm := base ++ sep ++ idxString i w ++ ext
      if fs.pathExists ⟨parent, nm⟩ then autoIncrementGo fs parent base sep ext w fuel (i + 1)
      else some ⟨parent, nm⟩

/-- FileRenamer.resolve_conflict: dispatch on the strategy string.  The
clock reading datetime.now().strftime of the source is the `now`
argument; it is consulted only by the auto_increment timestamp
fallback. -/
def resolveConflict (fs : FS) (cfg : RenameConfig) (totalFiles : Nat)
    (np : FPath) (idx : Nat) (now : String) : FPath :=
  if cfg.conflict_resolution = "skip" then np
  else if cfg.conflict_resolution = "add_suffix" then
    addSuffixGo fs np.parent (pyStem np.name) (pySuffix np.name) 100000 1
  else if cfg.conflict_resolution = "auto_increment" then
    let w := cfg.paddingWidth totalFiles
    match autoIncrementGo fs np.parent cfg.base_name cfg.separator (pySuffix np.name) w 10001 idx with
    | some p => p
    | none => ⟨np.parent, cfg.base_name ++ cfg.separator ++ now ++ pySuffix np.name⟩
  else if cfg.conflict_resolution = "prompt" then np
  else np

/-- One entry of the preview plan: (old_path, new_path, is_valid,
error_message); the validator returns the empty string when valid. -/
structure PlanEntry where
  src : FPath
  tgt : FPath
  valid : Bool
  err : String
deriving DecidableEq, Repr

/-- The initial rename plan of FileRenamer.preview_rename: sequential
indices from start_number over the sorted files. -/
def mkInitialPlan (cfg : RenameConfig) (totalFiles : Nat) :
    Nat → List FPath → List (FPath × FPath)
  | _, [] => []
  | idx, fp :: rest =>
      let ext := extractExtension fp
      let nm := generateNewName cfg totalFiles idx ext
      (fp, ⟨fp.parent, nm⟩) :: mkInitialPlan cfg totalFiles (idx + 1) rest

/-- The per-entry body of the preview loop (renamer_engine.py lines
236-251): validate, then resolve or mark the entry according to whether
its target is in the conflicts dictionary and to the strategy. -/
def markEntry (fs : FS) (cfg : RenameConfig) (totalFiles : Nat)
    (conflicts : ConflictDict) (now : String) (idx : Nat) (fp np : FPath) : PlanEntry :=
  let v := validateRenameOperation fs fp np
  if dictMem conflicts np ∧ cfg.conflict_resolution ≠ "skip" then
    let np2 := resolveConflict fs cfg totalFiles np idx now
    let v2 := validateRenameOperation fs fp np2
    ⟨fp, np2, v2.1, v2.2⟩
  else if dictMem conflicts np ∧ cfg.conflict_resolution = "skip" then
    ⟨fp, np, false, "File already exists (will be skipped)"⟩
  else
    ⟨fp, np, v.1, v.2⟩

/-- The marking loop of FileRenamer.preview_rename over the entries of
the initial plan, threading the sequential index. -/
def markGo (fs : FS) (cfg : RenameConfig) (totalFiles : Nat)
    (conflicts : ConflictDict) (now : String) :
    Nat → List (FPath × FPath) → List PlanEntry
  | _, [] => []
  | idx, (fp, np) :: rest =>
      markEntry fs cfg totalFiles conflicts now idx fp np ::
        markGo fs cfg totalFiles conflicts now (idx + 1) rest

/-- The conflict-marking stage of FileRenamer.preview_rename applied to
a synthesized initial plan: compute the conflicts dictionary of the
plan, then mark each entry with its sequential index. -/
def markPlan (fs : FS) (cfg : RenameConfig) (totalFiles : Nat) (now : String)
    (plan : List (FPath × FPath)) : List PlanEntry :=
  markGo fs cfg totalFiles (checkConflicts fs plan) now cfg.start_number plan

/-- FileRenamer.preview_rename: sort, synthesize sequential targets,
detect conflicts, and mark or resolve each entry. -/
def previewRename (fs : FS) (cfg : RenameConfig) (files : List FPath)
    (now : String) : List PlanEntry :=
  let sorted := sortFiles fs cfg.sort_method files
  let initial := mkInitialPlan cfg files.length cfg.start_number sorted
  markPlan fs cfg files.length now initial

/-- RenameResult from renamer_engine.py. -/
structure RenameResult where
  old_path : FPath
  new_path : FPath
  success : Bool
  error : Option String
deriving DecidableEq, Repr

/-- A history session: unique id, timestamp, record count, and the
ordered (old_path, new_path) pairs of the successful renames. -/
structure Session where
  id : String
  timestamp : String
  count : Nat
  files : List (FPath × FPath)
deriving DecidableEq, Repr

/-- The in-memory history store: ordered sessions, newest first. -/
structure HistoryData where
  sessions : List Session
deriving DecidableEq, Repr

/-- HistoryManager.add_session: no-op returning None on an empty record
list; otherwise prepend a fresh session and persist.  The fresh uuid
and timestamp are environment inputs; the third component records
whether _save_history ran (whether anything was written). -/
def addSession (h : HistoryData) (records : List (FPath × FPath))
    (newId ts : String) : Option String × HistoryData × Bool :=
  if records.isEmpty then (none, h, false)
  else (some newId,
        ⟨{ id := newId, timestamp := ts, count := records.length, files := records } :: h.sessions⟩,
        true)

/-- The loop state of FileRenamer.execute_rename: the evolving
filesystem, the results so far, and the successful_renames list. -/
structure ExecState where
  fs : FS
  results : List RenameResult
  successes : List (FPath × FPath)

/-- The body of the execute_rename loop for one plan entry: invalid
entries fail with their diagnostic and touch nothing; entries whose
source and target resolve equal succeed with no filesystem operation;
otherwise the OS rename is attempted and failures are classified. -/
def executeStep (st : ExecState) (e : PlanEntry) : ExecState :=
  if !e.valid then
    { st with results := st.results ++ [⟨e.src, e.tgt, false, some e.err⟩] }
  else if st.fs.resolve e.src = st.fs.resolve e.tgt then
    { st with results := st.results ++ [⟨e.src, e.tgt, true, none⟩] }
  else
    match st.fs.rename e.src e.tgt with
    | .ok fs2 =>
        { fs := fs2,
          results := st.results ++ [⟨e.src, e.tgt, true, none⟩],
          successes := st.successes ++ [(e.src, e.tgt)] }
    | .error (.permission _) =>
        { st with results := st.results ++
            [⟨e.src, e.tgt, false, some "Permission denied - file may be locked or in use"⟩] }
    | .error (.osError m) =>
        { st with results := st.results ++ [⟨e.src, e.tgt, false, some ("OS Error: " ++ m)⟩] }

/-- The for-loop of FileRenamer.execute_rename over the plan. -/
def executeLoop (fs : FS) (plan : List PlanEntry) : ExecState :=
  plan.foldl executeStep ⟨fs, [], []⟩

/-- FileRenamer.execute_rename: run the loop, then log a session iff
any successful actual rename was collected. -/
def executeRename (fs : FS) (h : HistoryData) (plan : List PlanEntry)
    (newId ts : String) : List RenameResult × FS × HistoryData :=
  let st := executeLoop fs plan
  let h2 := if st.successes.isEmpty then h else (addSession h st.successes newId ts).2.1
  (st.results, st.fs, h2)

/-- Does the character list contain the pattern as a contiguous
substring (Python `in` on strings)? -/
def listContainsSub (pat : List Char) : List Char → Bool
  | [] => pat.isEmpty
  | c :: rest => pat.isPrefixOf (c :: rest) || listContainsSub pat rest

/-- Python str(r.error) where error is Optional: None prints "None". -/
def strOfOptError : Option String → String
  | none => "None"
  | some s => s

/-- The skipped test of verify_rename: "skip" occurs in the lowercased
printed error. -/
def errorMentionsSkip (e : Option String) : Bool :=
  listContainsSub "skip".data (lowerStr (strOfOptError e)).data

/-- The statistics dictionary built by FileRenamer.verify_rename; the
Python float success rate is modelled exactly in the rationals. -/
structure VerifyStats where
  total : Nat
  successful : Nat
  failed : Nat
  skipped : Nat
  errors : List RenameResult
  success_rate : ℚ
deriving Repr

/-- FileRenamer.verify_rename. -/
def verifyRename (results : List RenameResult) : VerifyStats :=
  let total := results.length
  let successful := results.countP (fun r => r.success)
  { total := total
    successful := successful
    failed := results.countP (fun r => !r.success)
    skipped := results.countP (fun r => !r.success && errorMentionsSkip r.error)
    errors := results.filter (fun r => !r.success)
    success_rate := if total > 0 then (successful : ℚ) / (total : ℚ) * 100 else 0 }

/-- One record of FileRenamer.undo_session: the stored old path is the
restore target, the stored new path is the current file.  Missing
current file fails with "File not found"; an occupied restore target
fails rather than overwrite; otherwise the reverse rename runs. -/
def undoStep (fs : FS) (r : FPath × FPath) : FS × RenameResult :=
  let oldOriginal := r.1
  let current := r.2
  if !fs.pathExists current then
    (fs, ⟨current, oldOriginal, false, some "File not found"⟩)
  else if fs.pathExists oldOriginal then
    (fs, ⟨current, oldOriginal, false, some "Target path already exists"⟩)
  else
    match fs.rename current oldOriginal with
    | .ok fs2 => (fs2, ⟨current, oldOriginal, true, none⟩)
    | .error e => (fs, ⟨current, oldOriginal, false, some e.msg⟩)

/-- One fold step of the undo loop: perform the record and append its
result. -/
def undoGo (st : FS × List RenameResult) (r : FPath × FPath) : FS × List RenameResult :=
  let s2 := undoStep st.1 r
  (s2.1, st.2 ++ [s2.2])

/-- FileRenamer.undo_session: process the session records in reverse
order; the history store is carried through untouched, as the source
never calls add_session here. -/
def undoSession (fs : FS) (h : HistoryData) (files : List (FPath × FPath)) :
    List RenameResult × FS × HistoryData :=
  let fin := files.reverse.foldl undoGo (fs, [])
  (fin.2, fin.1, h)

/-- The final name component of a resolved path string, Python
Path(s).name: the text after the last slash. -/
def strName (s : String) : String :=
  let fin := s.data.foldl
    (fun (acc : List Char) c => if c = '/' then [] else acc ++ [c]) []
  String.mk fin

/-- HistoryManager.trace_original_name: scan sessions newest to oldest
with a resolved-path cursor; in each session take the first record
whose resolved new_path equals the cursor, advance the cursor to its
resolved old_path, remember it, and move on to the next (older)
session. -/
def traceOriginalName (fs : FS) (h : HistoryData) (p : FPath) : Option String :=
  let st := h.sessions.foldl
    (fun (st : String × Option String) ses =>
      match ses.files.find? (fun r => fs.resolve r.2 = st.1) with
      | some r => (fs.resolve r.1, some (fs.resolve r.1))
      | none => st)
    (fs.resolve p, none)
  st.2.map strName

/-- Modelled from the claim as stated: a cursor-tracing that, whenever
any record matches, advances the cursor and CONTINUES SCANNING WITHIN
THE SAME SESSION as well as in all older sessions.  Kept alongside
`traceOriginalName` (translated from the source, which breaks out of a
session at its first match) for comparison. -/
def traceOriginalNameClaim (fs : FS) (h : HistoryData) (p : FPath) : Option String :=
  let st := h.sessions.foldl
    (fun (st : String × Option String) ses =>
      ses.files.foldl
        (fun (st : String × Option String) r =>
          if fs.resolve r.2 = st.1 then (fs.resolve r.1, some (fs.resolve r.1)) else st)
        st)
    (fs.resolve p, none)
  st.2.map strName

/-- Modelled from the claim wording for the executed batch: the
(old_path, new_path) pairs of exactly those plan entries that succeed
by an actual filesystem rename, in execution order, threading the
filesystem exactly as execution does. -/
def actualRenamePairs (fs : FS) : List PlanEntry → List (FPath × FPath)
  | [] => []
  | e :: rest =>
      if e.valid ∧ fs.resolve e.src ≠ fs.resolve e.tgt then
        match fs.rename e.src e.tgt with
        | .ok fs2 => (e.src, e.tgt) :: actualRenamePairs fs2 rest
        | .error _ => actualRenamePairs fs rest
      else actualRenamePairs fs rest

/-- Successfully parsed JSON is either the expected shape (an object
with a "sessions" list) or well-formed JSON of some other shape, which
_load_history accepts as-is. -/
inductive StoredValue where
  | store (sessions : List Session)
  | wrongShape
deriving DecidableEq

/-- What reading the history storage file yields: the file may be
missing, unreadable (OSError), undecodable (json.JSONDecodeError), or
successfully parsed JSON. -/
inductive LoadOutcome where
  | fileMissing
  | osReadError
  | jsonDecodeError
  | parsedJson (v : StoredValue)

/-- HistoryManager._load_history: a missing file and the two caught
exception classes (OSError, json.JSONDecodeError) all degrade to the
empty store; any successfully parsed JSON value is returned without
shape validation. -/
def loadHistory : LoadOutcome → StoredValue
  | .fileMissing => .store []
  | .osReadError => .store []
  | .jsonDecodeError => .store []
  | .parsedJson v => v

/-- Subscripting history_data with "sessions" as get_sessions and every
other operation does: raises (KeyError/TypeError) when the loaded value
does not have the expected shape. -/
def storedGetSessions : StoredValue → Except String (List Session)
  | .store s => .ok s
  | .wrongShape => .error "KeyError: sessions"

/-!  Concrete filesystems and configurations used to exercise the
engine at specific inputs. -/

/-- A plain filesystem: resolution is textual rendering, the listed
paths exist, nothing is locked, every directory is writable. -/
def mkFS (existing : List String) : FS :=
  { resolve := pathStr
    files := fun s => existing.contains s
    locked := fun _ => false
    writableDir := fun _ => true
    mtime := fun _ => 0
    ctime := fun _ => 0 }

/-- The default-style configuration with base name f, underscore
separator, start number 1, selection order, auto_increment. -/
def cfgAuto : RenameConfig :=
  { base_name := "f", start_number := 1, separator := "_",
    sort_method := "selection_order", conflict_resolution := "auto_increment",
    padding := .auto }

/-- Same configuration under the skip strategy. -/
def cfgSkip : RenameConfig :=
  { cfgAuto with conflict_resolution := "skip" }

/-- Three distinct files in directory d for history tracing. -/
def pA : FPath := ⟨"d", "a.txt"⟩

/-- Second path for history tracing. -/
def pB : FPath := ⟨"d", "b.txt"⟩

/-- Third path for history tracing. -/
def pC : FPath := ⟨"d", "c.txt"⟩

/-- A single session that renamed B to C and then A to B, in that
execution order (possible in one batch: plan (B, C), (A, B)). -/
def chainStore : HistoryData :=
  ⟨[{ id := "s1", timestamp := "t1", count := 2, files := [(pB, pC), (pA, pB)] }]⟩

/-- Filesystem for the C2 failing input: both sources exist and the
first two synthesized targets are taken, f_3 is free. -/
def fsTaken : FS := mkFS ["d/a.txt", "d/b.txt", "d/f_1.txt", "d/f_2.txt"]

/-- Filesystem for the skip-duplicate scenario: only the two source
files exist, the shared target does not. -/
def fsPair : FS := mkFS ["d/a.jpg", "d/b.jpg"]

/-- Filesystem where a file named like its own synthesized target
exists, producing a same-source-and-target plan entry. -/
def fsSelf : FS := mkFS ["d/f_1.txt"]

/-- A two-entry plan whose entries share the identical target path. -/
def dupPlan : List (FPath × FPath) :=
  [(⟨"d", "a.jpg"⟩, ⟨"d", "photo_1.jpg"⟩), (⟨"d", "b.jpg"⟩, ⟨"d", "photo_1.jpg"⟩)]

/-- Filesystem in which every path exists: drives the auto_increment
search past its safety limit into the timestamp fallback. -/
def fsAll : FS :=
  { resolve := pathStr
    files := fun _ => true
    locked := fun _ => false
    writableDir := fun _ => true
    mtime := fun _ => 0
    ctime := fun _ => 0 }

/-- Filesystem whose resolver maps the two distinct textual paths of
one rename pair to the same canonical location (an aliased file), which
exists. -/
def fsAlias : FS :=
  { resolve := fun _ => "d/same"
    files := fun s => s = "d/same"
    locked := fun _ => false
    writableDir := fun _ => true
    mtime := fun _ => 0
    ctime := fun _ => 0 }

/-!  Theorems. -/

/-- C1, counterexample.  In the store whose single session renamed B to
C and then A to B, the source trace of C stops after the first matching
record of the session (cursor B) and returns the name of B, while the
claim as stated (continue scanning within the same session) would reach
A; so the two tracing functions disagree at this store. -/
theorem trace_same_session_counterexample :
    traceOriginalName (mkFS []) chainStore pC = some "b.txt"
    ∧ traceOriginalNameClaim (mkFS []) chainStore pC = some "a.txt"
    ∧ traceOriginalName (mkFS []) chainStore pC
        ≠ traceOriginalNameClaim (mkFS []) chainStore pC := by
  exact ⟨by decide, by decide, by decide⟩

/-- C1, amended.  trace_original_name advances the cursor at most once
per session (on the first record whose resolved new_path equals the
cursor) and then continues with strictly older sessions; the cross-
session multi-hop round trips hold: with session A renamed to B
followed (newer) by B renamed to C, tracing C yields the filename of
resolved A, and with only the first session, tracing B yields the
filename of resolved A. -/
theorem trace_multi_hop_round_trip (fs : FS) (a b c : FPath)
    (id1 id2 ts1 ts2 : String) :
    traceOriginalName fs
        ⟨[{ id := id2, timestamp := ts2, count := 1, files := [(b, c)] },
          { id := id1, timestamp := ts1, count := 1, files := [(a, b)] }]⟩ c
      = some (strName (fs.resolve a))
    ∧ traceOriginalName fs
        ⟨[{ id := id1, timestamp := ts1, count := 1, files := [(a, b)] }]⟩ b
      = some (strName (fs.resolve a)) := by
  constructor <;> simp [traceOriginalName, List.find?]

/-- C2: the failing input.  Two files a.txt and b.txt in directory d,
base name f, start number 1, auto_increment strategy, with d/f_1.txt
and d/f_2.txt already on disk and d/f_3.txt free: the auto_increment
search resolves BOTH entries to the same final target d/f_3.txt (each
search consults only the disk, not the targets already assigned to
other plan entries), violating the pairwise-distinct-targets property
the specification states for this strategy. -/
theorem auto_increment_duplicate_targets :
    previewRename fsTaken cfgAuto [⟨"d", "a.txt"⟩, ⟨"d", "b.txt"⟩] "20250101_120000"
      = [⟨⟨"d", "a.txt"⟩, ⟨"d", "f_3.txt"⟩, true, ""⟩,
         ⟨⟨"d", "b.txt"⟩, ⟨"d", "f_3.txt"⟩, true, ""⟩] := by
  decide

/-- C8, counterexample.  A rename pair whose source and target are
textually distinct but resolve to the same existing file: the
check_conflicts pass still records it as a conflict, because the source
compares new_path != old_path on unresolved paths; under the claim
(sameness decided by resolved equality) this pair would not conflict. -/
theorem resolved_identity_counterexample :
    fsAlias.resolve ⟨"d", "a.txt"⟩ = fsAlias.resolve ⟨"d", "b.txt"⟩
    ∧ fsAlias.pathExists ⟨"d", "b.txt"⟩ = true
    ∧ checkConflicts fsAlias [(⟨"d", "a.txt"⟩, ⟨"d", "b.txt"⟩)]
        = [(⟨"d", "b.txt"⟩, some ⟨"d", "a.txt"⟩)] := by
  exact ⟨rfl, rfl, by decide⟩

/-- C8, amended.  In check_conflicts an existing file at the target is
exempted exactly when the target equals the source as an unresolved
(textual) path, not when they merely resolve to the same file: for a
one-entry plan the conflicts dictionary is nonempty precisely on
existence plus textual inequality. -/
theorem check_conflicts_textual_identity (fs : FS) (old new_p : FPath) :
    checkConflicts fs [(old, new_p)]
      = if fs.pathExists new_p ∧ new_p ≠ old then [(new_p, some old)] else [] := by
  by_cases h : fs.pathExists new_p ∧ new_p ≠ old <;>
    simp [checkConflicts, dictInsert, dictMem, dupStep, h]

/-- C9, counterexample.  A readable storage file holding well-formed
JSON of the wrong shape (for example an object without a sessions key)
is corrupt as a store, yet _load_history accepts it as-is instead of
degrading to the empty store, and the subsequent sessions lookup then
raises to the caller. -/
theorem load_history_wrong_shape_counterexample :
    loadHistory (.parsedJson .wrongShape) = .wrongShape
    ∧ loadHistory (.parsedJson .wrongShape) ≠ .store []
    ∧ storedGetSessions (loadHistory (.parsedJson .wrongShape))
        = .error "KeyError: sessions" := by
  exact ⟨rfl, by decide, rfl⟩

/-- C9, amended.  A missing file, an unreadable file (OSError), or a
file that fails JSON decoding initializes the store to empty with no
error, and operations then behave as over an empty store (sessions
lookup succeeds with the empty list, tracing finds nothing); but a
successfully parsed JSON value is accepted without shape validation. -/
theorem load_history_degrades_to_empty :
    loadHistory .fileMissing = .store []
    ∧ loadHistory .osReadError = .store []
    ∧ loadHistory .jsonDecodeError = .store []
    ∧ storedGetSessions (loadHistory .fileMissing) = .ok []
    ∧ storedGetSessions (loadHistory .osReadError) = .ok []
    ∧ storedGetSessions (loadHistory .jsonDecodeError) = .ok []
    ∧ (∀ (fs : FS) (p : FPath), traceOriginalName fs ⟨[]⟩ p = none)
    ∧ (∀ v, loadHistory (.parsedJson v) = v) := by
  refine ⟨rfl, rfl, rfl, rfl, rfl, rfl, ?_, fun v => rfl⟩
  intro fs p
  simp [traceOriginalName]

/-- The successful_renames list collected by the execute loop is
exactly the pairs of entries that succeed by an actual filesystem
rename, threading the filesystem. -/
theorem executeLoop_successes (plan : List PlanEntry) :
    ∀ (fs : FS) (res : List RenameResult) (acc : List (FPath × FPath)),
      (plan.foldl executeStep ⟨fs, res, acc⟩).successes = acc ++ actualRenamePairs fs plan := by
  induction plan with
  | nil => intro fs res acc; simp [actualRenamePairs]
  | cons e rest ih =>
    intro fs res acc
    simp only [List.foldl_cons, actualRenamePairs]
    by_cases hv : e.valid
    · by_cases hr : fs.resolve e.src = fs.resolve e.tgt
      · simp [executeStep, hv, hr, ih]
      · cases hren : fs.rename e.src e.tgt with
        | ok fs2 => simp [executeStep, hv, hr, hren, ih]
        | error err => cases err <;> simp [executeStep, hv, hr, hren, ih]
    · simp [executeStep, hv, ih]

/-- C4.  execute_rename prepends a new history session exactly when at
least one entry succeeded by an actual filesystem rename, and that
session carries exactly those (old_path, new_path) pairs in execution
order with the matching count; and add_session on an empty record list
writes nothing and returns None. -/
theorem execute_rename_history_session (fs : FS) (h : HistoryData)
    (plan : List PlanEntry) (newId ts : String) :
    ((executeRename fs h plan newId ts).2.2.sessions
      = if (actualRenamePairs fs plan).isEmpty then h.sessions
        else { id := newId, timestamp := ts,
               count := (actualRenamePairs fs plan).length,
               files := actualRenamePairs fs plan } :: h.sessions)
    ∧ addSession h [] newId ts = (none, h, false) := by
  refine ⟨?_, by simp [addSession]⟩
  have hs := executeLoop_successes plan fs [] []
  simp only [List.nil_append] at hs
  simp only [executeRename, executeLoop, hs, addSession]
  by_cases he : (actualRenamePairs fs plan).isEmpty <;> simp [he]

/-- C5, counterexample.  A file d/f_1.txt whose synthesized target is
its own name: the planner validates the entry invalid with the
same-source-and-destination diagnostic, and executing that plan then
records a FAILURE for the entry (the invalid branch takes precedence
over the resolved-equal no-op success branch), where the claim states
success is recorded for every resolved-equal entry. -/
theorem same_path_entry_fails_counterexample :
    previewRename fsSelf cfgAuto [⟨"d", "f_1.txt"⟩] "20250101_120000"
      = [⟨⟨"d", "f_1.txt"⟩, ⟨"d", "f_1.txt"⟩, false, "Source and destination are the same"⟩]
    ∧ (executeRename fsSelf ⟨[]⟩
          (previewRename fsSelf cfgAuto [⟨"d", "f_1.txt"⟩] "20250101_120000") "id" "ts").1
      = [⟨⟨"d", "f_1.txt"⟩, ⟨"d", "f_1.txt"⟩, false,
          some "Source and destination are the same"⟩] := by
  exact ⟨by decide, by decide⟩

/-- C5, amended.  For a plan entry MARKED VALID whose source and target
resolve equal, the execute loop records a success result and performs
no filesystem operation and collects no history record for it; entries
marked invalid (as the planner marks every resolved-equal entry)
instead record a failure carrying the plan diagnostic. -/
theorem valid_same_path_entry_noop (st : ExecState) (e : PlanEntry)
    (hv : e.valid = true) (hr : st.fs.resolve e.src = st.fs.resolve e.tgt) :
    executeStep st e
      = { st with results := st.results ++ [⟨e.src, e.tgt, true, none⟩] } := by
  simp [executeStep, hv, hr]

/-- Witness for the amended C5 theorem at a concrete valid entry. -/
theorem valid_same_path_entry_noop_witness :
    executeStep ⟨fsSelf, [], []⟩ ⟨⟨"d", "f_1.txt"⟩, ⟨"d", "f_1.txt"⟩, true, ""⟩
      = ⟨fsSelf, [⟨⟨"d", "f_1.txt"⟩, ⟨"d", "f_1.txt"⟩, true, none⟩], []⟩ :=
  valid_same_path_entry_noop ⟨fsSelf, [], []⟩
    ⟨⟨"d", "f_1.txt"⟩, ⟨"d", "f_1.txt"⟩, true, ""⟩ rfl rfl

/-- Results accumulate on the right through the undo fold. -/
theorem undoGo_foldl_acc (l : List (FPath × FPath)) :
    ∀ (fs : FS) (acc : List RenameResult),
      (l.foldl undoGo (fs, acc)).2 = acc ++ (l.foldl undoGo (fs, [])).2 := by
  induction l with
  | nil => intro fs acc; simp
  | cons r rest ih =>
    intro fs acc
    simp only [List.foldl_cons, undoGo]
    rw [ih ((undoStep fs r).1) (acc ++ [(undoStep fs r).2]),
        ih ((undoStep fs r).1) ([] ++ [(undoStep fs r).2])]
    simp

/-- C6.  undo_session never overwrites: per record, a missing current
file fails with File not found and leaves the filesystem untouched, an
occupied restore target fails with Target path already exists and
leaves the filesystem untouched; records are processed in reverse
order (the last record of the session is handled first); and the
history store is never extended with a new session. -/
theorem undo_session_no_overwrite (fs : FS) (h : HistoryData)
    (files : List (FPath × FPath)) (old new_p : FPath) :
    ((undoSession fs h files).2.2 = h)
    ∧ (fs.pathExists new_p = false →
        undoStep fs (old, new_p) = (fs, ⟨new_p, old, false, some "File not found"⟩))
    ∧ (fs.pathExists new_p = true → fs.pathExists old = true →
        undoStep fs (old, new_p)
          = (fs, ⟨new_p, old, false, some "Target path already exists"⟩))
    ∧ ((undoSession fs h (files ++ [(old, new_p)])).1.head?
        = some (undoStep fs (old, new_p)).2) := by
  refine ⟨rfl, ?_, ?_, ?_⟩
  · intro hmiss; simp [undoStep, hmiss]
  · intro hcur hold; simp [undoStep, hcur, hold]
  · simp only [undoSession, List.reverse_append, List.reverse_cons, List.reverse_nil,
      List.nil_append, List.singleton_append, List.foldl_cons]
    rw [show undoGo (fs, []) (old, new_p)
          = ((undoStep fs (old, new_p)).1, [(undoStep fs (old, new_p)).2]) from rfl]
    rw [undoGo_foldl_acc]
    simp

/-- Witness for the C6 theorem: the not-found branch at a store holding
only d/b.txt, and the no-overwrite branch when both paths exist. -/
theorem undo_session_no_overwrite_witness :
    undoStep (mkFS ["d/b.txt"]) (pA, pC)
      = (mkFS ["d/b.txt"], ⟨pC, pA, false, some "File not found"⟩)
    ∧ undoStep (mkFS ["d/a.txt", "d/b.txt"]) (pA, pB)
      = (mkFS ["d/a.txt", "d/b.txt"], ⟨pB, pA, false, some "Target path already exists"⟩) :=
  ⟨(undo_session_no_overwrite (mkFS ["d/b.txt"]) ⟨[]⟩ [] pA pC).2.1 (by decide),
   (undo_session_no_overwrite (mkFS ["d/a.txt", "d/b.txt"]) ⟨[]⟩ [] pA pB).2.2.1
      (by decide) (by decide)⟩

/-- Splitting a count by a boolean predicate and its negation. -/
theorem countP_bool_split (p : RenameResult → Bool) (l : List RenameResult) :
    l.countP p + l.countP (fun r => !p r) = l.length := by
  induction l with
  | nil => simp
  | cons x xs ih => cases hx : p x <;> simp [List.countP_cons, hx] <;> omega

/-- C10.  verify_rename statistics: successful plus failed equals
total, the errors list is exactly the failed results, skipped never
exceeds failed, and the success rate of an empty result list is 0. -/
theorem verify_rename_invariants :
    (∀ results : List RenameResult,
      (verifyRename results).successful + (verifyRename results).failed
          = (verifyRename results).total
      ∧ (verifyRename results).errors = results.filter (fun r => !r.success)
      ∧ (∀ r, r ∈ (verifyRename results).errors ↔ r ∈ results ∧ r.success = false)
      ∧ (verifyRename results).skipped ≤ (verifyRename results).failed)
    ∧ (verifyRename []).success_rate = 0 := by
  refine ⟨fun results => ⟨?_, rfl, ?_, ?_⟩, by simp [verifyRename]⟩
  · simpa [verifyRename] using countP_bool_split (fun r => r.success) results
  · intro r
    simp [verifyRename, List.mem_filter]
  · simp only [verifyRename]
    exact List.countP_mono_left (fun r _ hb => by
      simp only [Bool.and_eq_true] at hb
      exact hb.1)

/-- Inserting a key makes it a member of the conflicts dictionary. -/
theorem dictMem_insert_self (d : ConflictDict) (k : FPath) (v : Option FPath) :
    dictMem (dictInsert d k v) k = true := by
  unfold dictMem dictInsert
  by_cases h : (List.any d fun kv => kv.1 = k) = true
  · rw [if_pos h]
    rw [List.any_eq_true] at h ⊢
    obtain ⟨kv, hkv, hk⟩ := h
    simp only [decide_eq_true_eq] at hk
    exact ⟨(k, v), List.mem_map.mpr ⟨kv, hkv, by simp [hk]⟩, by simp⟩
  · rw [if_neg h]
    simp

/-- Inserting never removes a key from the conflicts dictionary. -/
theorem dictMem_insert_mono (d : ConflictDict) (k q : FPath) (v : Option FPath)
    (h : dictMem d q = true) : dictMem (dictInsert d k v) q = true := by
  unfold dictMem at h ⊢
  unfold dictInsert
  by_cases hk : (List.any d fun kv => kv.1 = k) = true
  · rw [if_pos hk]
    rw [List.any_eq_true] at h ⊢
    obtain ⟨kv, hkv, hq⟩ := h
    simp only [decide_eq_true_eq] at hq
    by_cases hqk : q = k
    · subst hqk
      exact ⟨(q, v), List.mem_map.mpr ⟨kv, hkv, by simp [hq]⟩, by simp⟩
    · refine ⟨kv, List.mem_map.mpr ⟨kv, hkv, ?_⟩, by simp [hq]⟩
      rw [if_neg (by rw [hq]; exact hqk)]
  · rw [if_neg hk]
    rw [List.any_eq_true] at h ⊢
    obtain ⟨kv, hkv, hq⟩ := h
    exact ⟨kv, List.mem_append_left _ hkv, hq⟩

/-- Invariant of the duplicate-target pass: a target already recorded,
or seen before and occurring again, or occurring at least twice in the
remaining list, ends up in the conflicts dictionary. -/
theorem dupFold_mem (t : FPath) :
    ∀ (l : List FPath) (d : ConflictDict) (seen : List FPath),
      (dictMem d t = true ∨ (t ∈ l ∧ t ∈ seen) ∨ 2 ≤ l.countP (fun x => x = t)) →
      dictMem ((l.foldl dupStep (d, seen)).1) t = true := by
  intro l
  induction l with
  | nil =>
    intro d seen h
    rcases h with h | ⟨h1, _⟩ | h2
    · simpa using h
    · cases h1
    · simp at h2
  | cons x xs ih =>
    intro d seen h
    simp only [List.foldl_cons, dupStep]
    apply ih
    rcases h with h | ⟨h1, h2⟩ | h2
    · left
      by_cases hx : x ∈ seen
      · simp only [if_pos hx]
        exact dictMem_insert_mono d x t none h
      · simpa [hx] using h
    · rcases List.mem_cons.mp h1 with h1 | h1
      · subst h1
        left
        simp only [if_pos h2]
        exact dictMem_insert_self d t none
      · right; left
        exact ⟨h1, List.mem_cons_of_mem x h2⟩
    · by_cases hx : x = t
      · subst hx
        have hpos : 0 < xs.countP (fun y => y = x) := by
          rw [List.countP_cons, if_pos (by simp)] at h2
          omega
        obtain ⟨a, ha, hat⟩ := List.countP_pos_iff.mp hpos
        simp only [decide_eq_true_eq] at hat
        subst hat
        right; left
        exact ⟨ha, List.mem_cons_self a seen⟩
      · right; right
        rw [List.countP_cons] at h2
        simpa [hx] using h2

/-- A target synthesized by two or more plan entries is always present
in the conflicts dictionary of check_conflicts. -/
theorem checkConflicts_mem_of_dup (fs : FS) (plan : List (FPath × FPath)) (t : FPath)
    (hdup : 2 ≤ plan.countP (fun pr => pr.2 = t)) :
    dictMem (checkConflicts fs plan) t = true := by
  unfold checkConflicts
  apply dupFold_mem
  right; right
  rw [List.countP_map]
  exact hdup

/-- Every entry of the marking loop comes from some plan pair marked at
some index. -/
theorem markGo_mem (fs : FS) (cfg : RenameConfig) (n : Nat) (conflicts : ConflictDict)
    (now : String) :
    ∀ (plan : List (FPath × FPath)) (idx : Nat) (e : PlanEntry),
      e ∈ markGo fs cfg n conflicts now idx plan →
      ∃ (idx2 : Nat) (fp np : FPath), (fp, np) ∈ plan
        ∧ e = markEntry fs cfg n conflicts now idx2 fp np := by
  intro plan
  induction plan with
  | nil => intro idx e he; simp [markGo] at he
  | cons pr rest ih =>
    intro idx e he
    obtain ⟨fp, np⟩ := pr
    simp only [markGo, List.mem_cons] at he
    rcases he with he | he
    · exact ⟨idx, fp, np, List.mem_cons_self _ _, he⟩
    · obtain ⟨i2, fp2, np2, hmem, heq⟩ := ih (idx + 1) e he
      exact ⟨i2, fp2, np2, List.mem_cons_of_mem _ hmem, heq⟩

/-- Under the skip strategy the marking step never changes the target. -/
theorem markEntry_skip_tgt (fs : FS) (cfg : RenameConfig) (n : Nat)
    (conflicts : ConflictDict) (now : String) (idx : Nat) (fp np : FPath)
    (hskip : cfg.conflict_resolution = "skip") :
    (markEntry fs cfg n conflicts now idx fp np).tgt = np := by
  by_cases hm : dictMem conflicts np = true <;> simp [markEntry, hskip, hm]

/-- Under the skip strategy a conflicting target is marked invalid with
the already-exists diagnostic. -/
theorem markEntry_skip_dup (fs : FS) (cfg : RenameConfig) (n : Nat)
    (conflicts : ConflictDict) (now : String) (idx : Nat) (fp np : FPath)
    (hskip : cfg.conflict_resolution = "skip") (hmem : dictMem conflicts np = true) :
    markEntry fs cfg n conflicts now idx fp np
      = ⟨fp, np, false, "File already exists (will be skipped)"⟩ := by
  simp [markEntry, hskip, hmem]

/-- C3, counterexample.  Two entries sharing the target d/photo_1.jpg
under the skip strategy, with both sources on disk and the target
absent (no other conflict): the marking stage of preview_rename marks
BOTH entries invalid with the already-exists diagnostic, so the number
of valid entries is 0, not exactly 1 as claimed. -/
theorem skip_duplicate_counterexample :
    markPlan fsPair cfgSkip 2 "20250101_120000" dupPlan
      = [⟨⟨"d", "a.jpg"⟩, ⟨"d", "photo_1.jpg"⟩, false, "File already exists (will be skipped)"⟩,
         ⟨⟨"d", "b.jpg"⟩, ⟨"d", "photo_1.jpg"⟩, false, "File already exists (will be skipped)"⟩]
    ∧ (markPlan fsPair cfgSkip 2 "20250101_120000" dupPlan).countP (fun e => e.valid) ≠ 1 := by
  exact ⟨by decide, by decide⟩

/-- C3, amended.  Under the skip strategy, every plan entry whose
target is synthesized by at least two entries of the plan is marked
invalid with the already-exists diagnostic by the conflict-marking
stage of preview_rename (in particular, with exactly two duplicates
both entries are invalid, not exactly one). -/
theorem skip_duplicate_marks_all_invalid (fs : FS) (cfg : RenameConfig)
    (totalFiles : Nat) (now : String) (plan : List (FPath × FPath)) (e : PlanEntry)
    (hskip : cfg.conflict_resolution = "skip")
    (he : e ∈ markPlan fs cfg totalFiles now plan)
    (hdup : 2 ≤ plan.countP (fun pr => pr.2 = e.tgt)) :
    e.valid = false ∧ e.err = "File already exists (will be skipped)" := by
  obtain ⟨idx2, fp, np, _, heq⟩ :=
    markGo_mem fs cfg totalFiles (checkConflicts fs plan) now plan cfg.start_number e he
  have htgt : e.tgt = np := by
    rw [heq]
    exact markEntry_skip_tgt fs cfg totalFiles _ now idx2 fp np hskip
  rw [htgt] at hdup
  have hconf := checkConflicts_mem_of_dup fs plan np hdup
  rw [heq, markEntry_skip_dup fs cfg totalFiles _ now idx2 fp np hskip hconf]
  exact ⟨rfl, rfl⟩

/-- Witness for the amended C3 theorem at the first duplicate entry of
the concrete scenario. -/
theorem skip_duplicate_marks_all_invalid_witness :
    (⟨⟨"d", "a.jpg"⟩, ⟨"d", "photo_1.jpg"⟩, false,
        "File already exists (will be skipped)"⟩ : PlanEntry).valid = false
    ∧ (⟨⟨"d", "a.jpg"⟩, ⟨"d", "photo_1.jpg"⟩, false,
        "File already exists (will be skipped)"⟩ : PlanEntry).err
      = "File already exists (will be skipped)" :=
  skip_duplicate_marks_all_invalid fsPair cfgSkip 2 "20250101_120000" dupPlan
    ⟨⟨"d", "a.jpg"⟩, ⟨"d", "photo_1.jpg"⟩, false, "File already exists (will be skipped)"⟩
    rfl (by decide) (by decide)

/-- When every path exists, the auto_increment search never finds a
free name and exhausts its safety limit. -/
theorem autoIncrementGo_all_exists (fs : FS) (hall : ∀ s, fs.files s = true)
    (parent base sep ext : String) (w : Nat) :
    ∀ (fuel i : Nat), autoIncrementGo fs parent base sep ext w fuel i = none := by
  intro fuel
  induction fuel with
  | zero => intro i; rfl
  | succ n ih => intro i; simp [autoIncrementGo, FS.pathExists, hall, ih]

/-- When every path exists, conflict resolution under auto_increment
falls back to the clock-derived timestamp name. -/
theorem resolveConflict_all_exists (fs : FS) (hall : ∀ s, fs.files s = true)
    (cfg : RenameConfig) (hstrat : cfg.conflict_resolution = "auto_increment")
    (n : Nat) (np : FPath) (idx : Nat) (now : String) :
    resolveConflict fs cfg n np idx now
      = ⟨np.parent, cfg.base_name ++ cfg.separator ++ now ++ pySuffix np.name⟩ := by
  simp [resolveConflict, hstrat, autoIncrementGo_all_exists fs hall]

/-- C7, counterexample.  Against an unchanged all-occupied filesystem,
two runs of preview_rename at different clock instants produce
different plans: the auto_increment safety fallback embeds the current
timestamp in the target name, so the planner is not a function of the
file list, configuration and filesystem alone. -/
theorem preview_clock_counterexample :
    previewRename fsAll cfgAuto [pA] "TSA" ≠ previewRename fsAll cfgAuto [pA] "TSB" := by
  have hall : ∀ s, fsAll.files s = true := fun _ => rfl
  have hm : ∀ t : String, previewRename fsAll cfgAuto [pA] t
      = [⟨pA, resolveConflict fsAll cfgAuto 1 ⟨"d", "f_1.txt"⟩ 1 t,
          (validateRenameOperation fsAll pA
            (resolveConflict fsAll cfgAuto 1 ⟨"d", "f_1.txt"⟩ 1 t)).1,
          (validateRenameOperation fsAll pA
            (resolveConflict fsAll cfgAuto 1 ⟨"d", "f_1.txt"⟩ 1 t)).2⟩] :=
    fun t => rfl
  have hresA : resolveConflict fsAll cfgAuto 1 ⟨"d", "f_1.txt"⟩ 1 "TSA"
      = ⟨"d", "f_TSA.txt"⟩ := by
    rw [resolveConflict_all_exists fsAll hall cfgAuto rfl 1 ⟨"d", "f_1.txt"⟩ 1 "TSA"]
    decide
  have hresB : resolveConflict fsAll cfgAuto 1 ⟨"d", "f_1.txt"⟩ 1 "TSB"
      = ⟨"d", "f_TSB.txt"⟩ := by
    rw [resolveConflict_all_exists fsAll hall cfgAuto rfl 1 ⟨"d", "f_1.txt"⟩ 1 "TSB"]
    decide
  rw [hm "TSA", hm "TSB", hresA, hresB]
  decide

/-- Conflict resolution never consults the clock unless the strategy
is auto_increment AND its forward search comes back empty-handed: with
any other strategy, or whenever the search for this target and index
finds a free name within the safety window, the result is independent
of the timestamp. -/
theorem resolveConflict_clock_irrelevant (fs : FS) (cfg : RenameConfig)
    (n : Nat) (np : FPath) (idx : Nat) (t1 t2 : String)
    (h : cfg.conflict_resolution ≠ "auto_increment" ∨
        autoIncrementGo fs np.parent cfg.base_name cfg.separator (pySuffix np.name)
          (cfg.paddingWidth n) 10001 idx ≠ none) :
    resolveConflict fs cfg n np idx t1 = resolveConflict fs cfg n np idx t2 := by
  unfold resolveConflict
  by_cases h1 : cfg.conflict_resolution = "skip"
  · simp [h1]
  by_cases h2 : cfg.conflict_resolution = "add_suffix"
  · simp [h1, h2]
  by_cases h3 : cfg.conflict_resolution = "auto_increment"
  · rcases h with h | h
    · exact absurd h3 h
    · cases hgo : autoIncrementGo fs np.parent cfg.base_name cfg.separator
          (pySuffix np.name) (cfg.paddingWidth n) 10001 idx with
      | some p => simp [h1, h2, h3, hgo]
      | none => exact absurd hgo h
  by_cases h4 : cfg.conflict_resolution = "prompt"
  · simp [h1, h2, h3, h4]
  · simp [h1, h2, h3, h4]

/-- Marking an entry never consults the clock when the strategy is not
auto_increment or when no auto_increment search on this filesystem can
exhaust its safety window. -/
theorem markEntry_clock_irrelevant (fs : FS) (cfg : RenameConfig) (n : Nat)
    (conflicts : ConflictDict) (idx : Nat) (fp np : FPath) (t1 t2 : String)
    (h : cfg.conflict_resolution ≠ "auto_increment" ∨
        ∀ (np2 : FPath) (idx2 : Nat),
          autoIncrementGo fs np2.parent cfg.base_name cfg.separator (pySuffix np2.name)
            (cfg.paddingWidth n) 10001 idx2 ≠ none) :
    markEntry fs cfg n conflicts t1 idx fp np = markEntry fs cfg n conflicts t2 idx fp np := by
  unfold markEntry
  rw [resolveConflict_clock_irrelevant fs cfg n np idx t1 t2 (h.imp_right fun hr => hr np idx)]

/-- The marking loop never consults the clock when the strategy is not
auto_increment or when no auto_increment search on this filesystem can
exhaust its safety window. -/
theorem markGo_clock_irrelevant (fs : FS) (cfg : RenameConfig) (n : Nat)
    (conflicts : ConflictDict) (t1 t2 : String)
    (h : cfg.conflict_resolution ≠ "auto_increment" ∨
        ∀ (np2 : FPath) (idx2 : Nat),
          autoIncrementGo fs np2.parent cfg.base_name cfg.separator (pySuffix np2.name)
            (cfg.paddingWidth n) 10001 idx2 ≠ none) :
    ∀ (plan : List (FPath × FPath)) (idx : Nat),
      markGo fs cfg n conflicts t1 idx plan = markGo fs cfg n conflicts t2 idx plan := by
  intro plan
  induction plan with
  | nil => intro idx; rfl
  | cons pr rest ih =>
    intro idx
    obtain ⟨fp, np⟩ := pr
    simp only [markGo]
    rw [markEntry_clock_irrelevant fs cfg n conflicts idx fp np t1 t2 h, ih (idx + 1)]

/-- C7, amended.  preview_rename is a pure function of the file list,
configuration, filesystem state and clock reading, and the clock
enters only through the auto_increment timestamp fallback: two runs
against the same unchanged filesystem produce the identical plan for
every conflict strategy other than auto_increment, and also under
auto_increment whenever the forward search cannot exhaust its
10000-index safety window on that filesystem (the fallback is never
reached). -/
theorem preview_clock_independent (fs : FS) (cfg : RenameConfig)
    (files : List FPath) (t1 t2 : String)
    (h : cfg.conflict_resolution ≠ "auto_increment" ∨
        ∀ (np : FPath) (idx : Nat),
          autoIncrementGo fs np.parent cfg.base_name cfg.separator (pySuffix np.name)
            (cfg.paddingWidth files.length) 10001 idx ≠ none) :
    previewRename fs cfg files t1 = previewRename fs cfg files t2 := by
  unfold previewRename markPlan
  exact markGo_clock_irrelevant fs cfg files.length _ t1 t2 h _ cfg.start_number

/-- Witness for the amended C7 theorem under the auto_increment
strategy itself, on an empty filesystem where every search finds its
first candidate free, so the safety window is never exhausted. -/
theorem preview_clock_independent_witness :
    previewRename (mkFS []) cfgAuto [pA] "20250101_120000"
      = previewRename (mkFS []) cfgAuto [pA] "20250101_120001" :=
  preview_clock_independent (mkFS []) cfgAuto [pA] "20250101_120000" "20250101_120001"
    (Or.inr fun _ _ h => Option.noConfusion h)

end FileOrg
